import Mathlib

/-!
Verification of the `cmdq` sequential command-execution engine
(`src/command-queue.ts`, with types from `src/types.ts`).

The TypeScript classes are shallowly embedded as pure Lean functions:
  * the OS process spawner (`spawnSync`) is an oracle parameter
    `spawn : String → Option String → String × String × Int`
    (command text, optional stdin bytes ↦ stdout, stderr, exit status);
  * the run loop additionally returns the list of command texts actually
    handed to the OS, so that "no process is spawned" is provable;
  * JSON record files are modelled as association lists
    `List (String × CommandQueueResult)` (a `Record<string, R>` keyed by
    command text, with JS object assignment = in-place upsert),
    wrapped in a `FileContent` that can also be unparsable;
  * machine numbers (exit statuses) are `Int`.
-/

namespace Cmdq

/-- `PipeType` from `src/types.ts`: `'stdout' | 'stderr' | 'both' | 'none'`. -/
inductive PipeType where
  | stdout
  | stderr
  | both
  | none
deriving DecidableEq, Repr

/-- The `result` field of `CommandQueueResult`: `{success: boolean, message: string}`. -/
structure Outcome where
  success : Bool
  message : String
deriving DecidableEq, Repr

/-- `CommandQueueResult` from `src/types.ts`, with the `skipped` and `piped`
fields the engine in `src/command-queue.ts` stores on every result. -/
structure CommandQueueResult where
  id : String
  command : String
  skipped : Bool
  piped : PipeType
  out : String
  err : String
  stat : Int
  result : Outcome
deriving DecidableEq, Repr

/-- `CommandInput` from `src/types.ts`.  The optional `pre`/`post` hooks are
caller-supplied closures; `pipe` is optional (`Option.none` = field absent). -/
structure CommandInput where
  command : String
  id : String
  continueOnError : Bool
  pipe : Option PipeType
  pre : Option (Option CommandQueueResult → Bool)
  post : Option (CommandQueueResult → CommandQueueResult)

/-- `CommandQueueConfig` from `src/types.ts`. -/
structure CommandQueueConfig where
  workingDirectory : String
  enableTrace : Bool
  continueOnError : Bool
  dryRun : Bool
  dryRunResultsFile : Option String

/-- JS truthiness of `config.dryRunResultsFile` (an absent or empty path is falsy). -/
def hasResultsFile (config : CommandQueueConfig) : Bool :=
  match config.dryRunResultsFile with
  | some p => p ≠ ""
  | Option.none => false

/-- Association-list lookup, modelling `record[key]` / `key in record` on a
JSON-derived `Record<string, ·>`. -/
def lookupA {β : Type} : List (String × β) → String → Option β
  | [], _ => Option.none
  | (k', v) :: rest, k => if k' = k then some v else lookupA rest k

/-- JS object assignment `record[key] = value`: replaces the value in place if
the key exists (keeping its position), otherwise appends at the end. -/
def upsertA {β : Type} : List (String × β) → String → β → List (String × β)
  | [], k, v => [(k, v)]
  | (k', v') :: rest, k, v =>
    if k' = k then (k', v) :: rest else (k', v') :: upsertA rest k v

/-- The last element of the list satisfying `p`, if any. -/
def lastMatch (p : CommandQueueResult → Bool) : List CommandQueueResult → Option CommandQueueResult
  | [] => Option.none
  | r :: rest =>
    match lastMatch p rest with
    | some r' => some r'
    | Option.none => if p r then some r else Option.none

/-- `CommandQueue.preHandler`: the base class's default gate always allows execution. -/
def preHandler (_previousResult : Option CommandQueueResult) : Bool :=
  true

/-- `CommandQueue.postHandler`: outcome classification,
`success = !(result.stat !== 0 && result.err)`, `message = result.err`
(a non-empty string is truthy in JS). -/
def postHandler (result : CommandQueueResult) : CommandQueueResult :=
  { result with result := { success := !(result.stat ≠ 0 && result.err ≠ ""), message := result.err } }

/-- `CommandQueue.shouldSkipCommand`:
`!this.preHandler(lastResult ?? null) || (command.pre && !command.pre(lastResult))`. -/
def shouldSkipCommand (command : CommandInput) (lastResult : Option CommandQueueResult) : Bool :=
  !preHandler lastResult ||
    (match command.pre with
     | some p => !p lastResult
     | Option.none => false)

/-- `CommandQueue.shouldPipeCommand`:
`nextCommand && nextCommand.pipe && nextCommand.pipe !== 'none'`
(the string `'none'` is truthy, so the test is: pipe present and ≠ `'none'`). -/
def shouldPipeCommand (nextCommand : Option CommandInput) : Bool :=
  match nextCommand with
  | some nc =>
    match nc.pipe with
    | some p => p ≠ PipeType.none
    | Option.none => false
  | Option.none => false

/-- The backward walk of `handleExecCommand` over the results recorded so far
(`resultsRev` is the result store most recent first, i.e. `results[i-1], results[i-2], …`):
while the previous result is piped, prepend its command text with the operator
selected by its `piped` mode; stop at the first non-piped result. -/
def buildPipeChain : List CommandQueueResult → String → String
  | [], cmd => cmd
  | r :: rest, cmd =>
    match r.piped with
    | PipeType.none => cmd
    | PipeType.stdout => buildPipeChain rest (r.command ++ " | " ++ cmd)
    | PipeType.stderr => buildPipeChain rest (r.command ++ " 2>&1 1>/dev/null | " ++ cmd)
    | PipeType.both => buildPipeChain rest (r.command ++ " 2>&1 | " ++ cmd)

/-- `CommandQueue.exec`.  In dry-run mode it consults the canned-result store
and never spawns; live it selects optional stdin bytes from `lastResult`
according to the request's own `pipe` mode (an empty string is falsy in JS, so
it yields no stdin) and calls the spawn oracle.  The second component records
the command text handed to the OS (`Option.none` = no process spawned). -/
def exec (config : CommandQueueConfig) (canned : List (String × CommandQueueResult))
    (spawn : String → Option String → String × String × Int)
    (cmd : String) (lastResult : Option CommandQueueResult) (pipe : Option PipeType) :
    (String × String × Int) × Option String :=
  if config.dryRun then
    match lookupA canned cmd with
    | some r => ((r.out, r.err, r.stat), Option.none)
    | Option.none => (("", "", 0), Option.none)
  else
    let input : Option String :=
      match lastResult, pipe with
      | some lr, some PipeType.stdout => if lr.out = "" then Option.none else some lr.out
      | some lr, some PipeType.stderr => if lr.err = "" then Option.none else some lr.err
      | some lr, some PipeType.both =>
        if lr.out ++ lr.err = "" then Option.none else some (lr.out ++ lr.err)
      | _, _ => Option.none
    (spawn cmd input, some cmd)

/-- `CommandQueue.handleExecCommand`: compile the pipe chain from the already
recorded results (most recent first), execute it, classify the outcome with
`postHandler`, then apply the request's own `post` transform if present.
Returns the stored result and the spawned command text, if any. -/
def handleExecCommand (config : CommandQueueConfig)
    (canned : List (String × CommandQueueResult))
    (spawn : String → Option String → String × String × Int)
    (resultsRev : List CommandQueueResult)
    (lastResult : Option CommandQueueResult) (command : CommandInput) :
    CommandQueueResult × Option String :=
  let pipeChain := buildPipeChain resultsRev command.command
  let e := exec config canned spawn pipeChain lastResult command.pipe
  let r0 : CommandQueueResult :=
    { id := command.id
      command := pipeChain
      skipped := false
      piped := PipeType.none
      out := e.1.1
      err := e.1.2.1
      stat := e.1.2.2
      result := { success := false, message := "" } }
  let r1 := postHandler r0
  let r2 :=
    match command.post with
    | some f => f r1
    | Option.none => r1
  (r2, e.2)

/-- `CommandQueue.handlePipedCommand`: the current request is deferred into the
next request's pipeline; record a placeholder with the next request's declared
pipe mode (`nextCommand.pipe || 'none'`) and empty output. -/
def handlePipedCommand (command : CommandInput) (nextPipe : Option PipeType) : CommandQueueResult :=
  { id := command.id
    command := command.command
    piped := nextPipe.getD PipeType.none
    skipped := false
    out := ""
    err := ""
    stat := 0
    result := { success := true, message := "Piped to following command" } }

/-- `CommandQueue.handleSkippedCommand`: gate-rejected request, recorded with
`skipped = true` and the fixed outcome `{success: false, message: 'Command skipped'}`. -/
def handleSkippedCommand (command : CommandInput) : CommandQueueResult :=
  { id := command.id
    command := command.command
    skipped := true
    piped := PipeType.none
    out := ""
    err := ""
    stat := 0
    result := { success := false, message := "Command skipped" } }

/-- The body of one iteration of `CommandQueue.run` (lines 132–138): skip check
first, then the pipe-deferral check on the next queued command, else compiled
execution.  Returns the recorded result and the spawned command text, if any. -/
def runStep (config : CommandQueueConfig)
    (canned : List (String × CommandQueueResult))
    (spawn : String → Option String → String × String × Int)
    (resultsRev : List CommandQueueResult)
    (lastResult : Option CommandQueueResult)
    (command : CommandInput) (nextCommand : Option CommandInput) :
    CommandQueueResult × Option String :=
  if shouldSkipCommand command lastResult then
    (handleSkippedCommand command, Option.none)
  else if shouldPipeCommand nextCommand then
    (handlePipedCommand command ((nextCommand.bind (·.pipe)).getD PipeType.none), Option.none)
  else
    handleExecCommand config canned spawn resultsRev lastResult command

/-- The loop of `CommandQueue.run`: iterate the queue maintaining the last
produced result, the result store so far (most recent first) and the list of
spawned command texts (most recent first); after each recorded result, if its
outcome is failure and the request's `continueOnError` is false, break.
Returns the final result store and spawn log in chronological order. -/
def runLoop (config : CommandQueueConfig)
    (canned : List (String × CommandQueueResult))
    (spawn : String → Option String → String × String × Int) :
    List CommandInput → Option CommandQueueResult → List CommandQueueResult →
    List String → List CommandQueueResult × List String
  | [], _, accRev, spawnedRev => (accRev.reverse, spawnedRev.reverse)
  | command :: rest, lastResult, accRev, spawnedRev =>
    let step := runStep config canned spawn accRev lastResult command rest.head?
    let r := step.1
    let spawnedRev' :=
      match step.2 with
      | some s => s :: spawnedRev
      | Option.none => spawnedRev
    if !r.result.success && !command.continueOnError then
      ((r :: accRev).reverse, spawnedRev'.reverse)
    else
      runLoop config canned spawn rest (some r) (r :: accRev) spawnedRev'

/-- The `CommandQueue` object state: queued commands, configuration, result
store of the most recent run, and the canned results loaded at construction. -/
structure CommandQueue where
  commands : List CommandInput
  config : CommandQueueConfig
  results : List CommandQueueResult
  cannedResults : List (String × CommandQueueResult)

/-- `CommandQueue.run` (without the results-file persistence step, which does
not touch the queue state): clear the result store, execute the loop starting
from an empty store and no previous result, then drain the command queue.
Also returns the list of command texts handed to the OS. -/
def CommandQueue.run (spawn : String → Option String → String × String × Int)
    (q : CommandQueue) : CommandQueue × List String :=
  let lr := runLoop q.config q.cannedResults spawn q.commands Option.none [] []
  ({ q with results := lr.1, commands := [] }, lr.2)

/-- `CommandQueue.first`: the first result in the store whose `skipped` flag is false. -/
def firstUnskipped : List CommandQueueResult → Option CommandQueueResult
  | [] => Option.none
  | r :: rest => if r.skipped then firstUnskipped rest else some r

/-- `CommandQueue.last`: scan from the end of the store for the first result
whose `skipped` flag is false. -/
def lastUnskipped (results : List CommandQueueResult) : Option CommandQueueResult :=
  firstUnskipped results.reverse

/-- `CommandQueue.firstOut`: `this.first()?.out.trim()`. -/
def firstOut (results : List CommandQueueResult) : Option String :=
  (firstUnskipped results).map (fun r => r.out.trim)

/-- `CommandQueue.lastOut`: `this.last()?.out.trim()`. -/
def lastOut (results : List CommandQueueResult) : Option String :=
  (lastUnskipped results).map (fun r => r.out.trim)

/-- `CommandQueue.success`: every stored result's outcome is success. -/
def successOf (results : List CommandQueueResult) : Bool :=
  results.all (fun r => r.result.success)

/-- `CommandQueue.hasErrors`: some stored result's outcome is failure. -/
def hasErrorsOf (results : List CommandQueueResult) : Bool :=
  results.any (fun r => !r.result.success)

/-- `CommandQueue.errors`: a reduce over the result store, assigning
`acc[result.command] = result.result.message` for every failed result
(later assignments to the same command text overwrite earlier ones). -/
def errorsOf (results : List CommandQueueResult) : List (String × String) :=
  results.foldl
    (fun acc r => if r.result.success then acc else upsertA acc r.command r.result.message)
    []

/-- Content of the results file: either a parsable JSON record keyed by
command text, or unparsable text (on which `JSON.parse` throws). -/
inductive FileContent where
  | valid (entries : List (String × CommandQueueResult))
  | invalid

/-- The merge step of `CommandQueue.save`: `for (const r of this.results) commands[r.command] = r`. -/
def saveMerge (seed : List (String × CommandQueueResult))
    (results : List CommandQueueResult) : List (String × CommandQueueResult) :=
  results.foldl (fun acc r => upsertA acc r.command r) seed

/-- `CommandQueue.save`: when appending and the file exists, parse it as the
seed mapping (a parse error is caught and yields `false`); merge the result
store into the mapping keyed by compiled command text; write it back
(`writeOk = false` models an I/O failure of the write, also caught).
Returns the success flag and the resulting file content. -/
def save (results : List CommandQueueResult) (file : Option FileContent)
    (writeOk : Bool) (append : Bool) : Bool × Option FileContent :=
  match (if append then file else Option.none) with
  | some FileContent.invalid => (false, file)
  | some (FileContent.valid seed) =>
    if writeOk then (true, some (FileContent.valid (saveMerge seed results)))
    else (false, file)
  | Option.none =>
    if writeOk then (true, some (FileContent.valid (saveMerge [] results)))
    else (false, file)

/-- The canned-result loading in the `CommandQueue` constructor: when dry-run
and a results file are both set and the file exists, parse it in full
(`JSON.parse` of an unparsable file throws out of the constructor, modelled as
`Except.error`); otherwise the canned store starts empty. -/
def loadCanned (config : CommandQueueConfig) (file : Option FileContent) :
    Except Unit (List (String × CommandQueueResult)) :=
  if config.dryRun && hasResultsFile config then
    match file with
    | some (FileContent.valid entries) => Except.ok entries
    | some FileContent.invalid => Except.error ()
    | Option.none => Except.ok []
  else Except.ok []

/-- The `CommandQueue` constructor for a given configuration and results-file
content: a fresh queue with the canned store loaded per `loadCanned`. -/
def mkQueue (config : CommandQueueConfig) (file : Option FileContent) :
    Except Unit CommandQueue :=
  (loadCanned config file).map
    (fun canned => { commands := [], config := config, results := [], cannedResults := canned })

/-- `CommandQueue.run` including the end-of-run persistence: after the loop,
if a results file is configured and dry-run is not active, append-save the
accumulated results to the file. -/
def runWithFile (spawn : String → Option String → String × String × Int)
    (q : CommandQueue) (file : Option FileContent) (writeOk : Bool) :
    CommandQueue × List String × Option FileContent :=
  let rq := q.run spawn
  let file' :=
    if hasResultsFile q.config && !q.config.dryRun then
      (save rq.1.results file writeOk true).2
    else file
  (rq.1, rq.2, file')

/-- The result a single gateless, pipeless, transformless request produces,
independent of its position in the queue. -/
def execOne (config : CommandQueueConfig) (canned : List (String × CommandQueueResult))
    (spawn : String → Option String → String × String × Int)
    (command : CommandInput) : CommandQueueResult :=
  (handleExecCommand config canned spawn [] Option.none command).1

/-- Spec-side description for the result-store-length law (§8 of the spec):
the produced results up to and including the first failure. -/
def resultsUpToFirstFailure : List CommandQueueResult → List CommandQueueResult
  | [] => []
  | r :: rest => if r.result.success then r :: resultsUpToFirstFailure rest else [r]

/-- The pipeline join operator `handleExecCommand` inserts for each declared
pipe mode of a piped-away result (lines 178–189 of `src/command-queue.ts`). -/
def pipeJoinOp : PipeType → String
  | PipeType.stdout => " | "
  | PipeType.stderr => " 2>&1 1>/dev/null | "
  | PipeType.both => " 2>&1 | "
  | PipeType.none => ""

/-! ### Concrete fixtures used by witnesses and counterexamples -/

/-- A live configuration with no results file. -/
def cfgLive : CommandQueueConfig :=
  { workingDirectory := ".", enableTrace := false, continueOnError := false,
    dryRun := false, dryRunResultsFile := Option.none }

/-- A live configuration with a results file configured. -/
def cfgLiveFile : CommandQueueConfig :=
  { workingDirectory := ".", enableTrace := false, continueOnError := false,
    dryRun := false, dryRunResultsFile := some "results.json" }

/-- A dry-run configuration with a results file configured. -/
def cfgDryFile : CommandQueueConfig :=
  { workingDirectory := ".", enableTrace := false, continueOnError := false,
    dryRun := true, dryRunResultsFile := some "results.json" }

/-- A spawn oracle whose every process exits 0 with empty output. -/
def spawnZero : String → Option String → String × String × Int :=
  fun _ _ => ("", "", 0)

/-- A spawn oracle whose every process prints `hello` and exits 0. -/
def spawnHello : String → Option String → String × String × Int :=
  fun _ _ => ("hello\n", "", 0)

/-- A spawn oracle failing (exit 1, stderr text) exactly on the command `fail`. -/
def spawnSel : String → Option String → String × String × Int :=
  fun cmd _ => if cmd = "fail" then ("", "boom", 1) else ("ok", "", 0)

/-- A request with no gate, no transform and no pipe mode. -/
def plainCmd (cmd ident : String) : CommandInput :=
  { command := cmd, id := ident, continueOnError := false,
    pipe := Option.none, pre := Option.none, post := Option.none }

/-- A request whose gate always rejects. -/
def gatedCmd : CommandInput :=
  { command := "echo a", id := "g1", continueOnError := false,
    pipe := Option.none, pre := some (fun _ => false), post := Option.none }

/-- A canned result used in dry-run witnesses. -/
def rCan : CommandQueueResult :=
  { id := "c1", command := "echo a", skipped := false, piped := PipeType.none,
    out := "OUT", err := "E", stat := 3, result := { success := true, message := "" } }

/-- A canned-result store with one entry for `echo a`. -/
def canned0 : List (String × CommandQueueResult) := [("echo a", rCan)]

/-- A failed result with command text `dup` and message `first failure`. -/
def dupFail1 : CommandQueueResult :=
  { id := "d1", command := "dup", skipped := false, piped := PipeType.none,
    out := "", err := "e1", stat := 1, result := { success := false, message := "first failure" } }

/-- A failed result with command text `dup` and message `second failure`. -/
def dupFail2 : CommandQueueResult :=
  { id := "d2", command := "dup", skipped := false, piped := PipeType.none,
    out := "", err := "e2", stat := 1, result := { success := false, message := "second failure" } }

/-- A skipped result fixture. -/
def rSkip : CommandQueueResult :=
  { id := "s1", command := "skipped cmd", skipped := true, piped := PipeType.none,
    out := "", err := "", stat := 0, result := { success := false, message := "Command skipped" } }

/-- An unskipped (piped-away) result fixture. -/
def rPiped : CommandQueueResult :=
  { id := "p1", command := "piped cmd", skipped := false, piped := PipeType.stdout,
    out := " padded ", err := "", stat := 0,
    result := { success := true, message := "Piped to following command" } }

/-- The queue of three plain requests, of which the middle one fails under `spawnSel`. -/
def cmds0 : List CommandInput :=
  [plainCmd "echo a" "i1", plainCmd "fail" "i2", plainCmd "echo c" "i3"]

/-- The result of the live witness run of `echo b` under `spawnHello`. -/
def rLive : CommandQueueResult :=
  { id := "i2", command := "echo b", skipped := false, piped := PipeType.none,
    out := "hello\n", err := "", stat := 0, result := { success := true, message := "" } }

/-- A live queue holding the single request `echo b`, with a results file configured. -/
def qLive : CommandQueue :=
  { commands := [plainCmd "echo b" "i2"], config := cfgLiveFile,
    results := [], cannedResults := [] }

/-- A request with no gate and no transform, with the given continue-on-error
flag and pipe mode. -/
def inCmd (cmd ident : String) (coe : Bool) (pm : Option PipeType) : CommandInput :=
  { command := cmd, id := ident, continueOnError := coe,
    pipe := pm, pre := Option.none, post := Option.none }

/-- The piped-away placeholder result `handlePipedCommand` records. -/
def plRes (ident cmd : String) (pm : PipeType) : CommandQueueResult :=
  { id := ident, command := cmd, skipped := false, piped := pm,
    out := "", err := "", stat := 0,
    result := { success := true, message := "Piped to following command" } }

/-- The result an exec step stores for spawn output `s`, after outcome
classification and with no `post` transform. -/
def execRes (ident cmd : String) (s : String × String × Int) : CommandQueueResult :=
  { id := ident, command := cmd, skipped := false, piped := PipeType.none,
    out := s.1, err := s.2.1, stat := s.2.2,
    result := { success := !(s.2.2 ≠ 0 && s.2.1 ≠ ""), message := s.2.1 } }

/-! ### Helper lemmas -/

theorem lookupA_upsertA_self {β : Type} (m : List (String × β)) (k : String) (v : β) :
    lookupA (upsertA m k v) k = some v := by
  induction m with
  | nil => simp [upsertA, lookupA]
  | cons p rest ih =>
    obtain ⟨k', v'⟩ := p
    by_cases h : k' = k
    · simp [upsertA, lookupA, h]
    · simp [upsertA, lookupA, h, ih]

theorem lookupA_upsertA_ne {β : Type} (m : List (String × β)) (k k' : String) (v : β)
    (h : k ≠ k') : lookupA (upsertA m k v) k' = lookupA m k' := by
  induction m with
  | nil => simp [upsertA, lookupA, h]
  | cons p rest ih =>
    obtain ⟨k0, v0⟩ := p
    by_cases h0 : k0 = k
    · subst h0
      simp [upsertA, lookupA, h]
    · simp [upsertA, lookupA, h0, ih]

theorem lookupA_saveMerge (rs : List CommandQueueResult)
    (seed : List (String × CommandQueueResult)) (c : String) :
    lookupA (saveMerge seed rs) c =
      match lastMatch (fun r => decide (r.command = c)) rs with
      | some r => some r
      | Option.none => lookupA seed c := by
  induction rs generalizing seed with
  | nil => simp [saveMerge, lastMatch]
  | cons r rest ih =>
    have hfold : saveMerge seed (r :: rest) = saveMerge (upsertA seed r.command r) rest := by
      simp [saveMerge, List.foldl_cons]
    rw [hfold, ih]
    cases hlm : lastMatch (fun r' => decide (r'.command = c)) rest with
    | some r' => simp [lastMatch, hlm]
    | none =>
      by_cases hc : r.command = c
      · subst hc
        simp [lastMatch, hlm, lookupA_upsertA_self]
      · simp [lastMatch, hlm, hc, lookupA_upsertA_ne _ _ _ _ hc]

theorem lookupA_errorsOf_aux (rs : List CommandQueueResult)
    (acc : List (String × String)) (c : String) :
    lookupA
        (rs.foldl
          (fun a r => if r.result.success then a else upsertA a r.command r.result.message)
          acc) c =
      match lastMatch (fun r => !r.result.success && decide (r.command = c)) rs with
      | some r => some r.result.message
      | Option.none => lookupA acc c := by
  induction rs generalizing acc with
  | nil => simp [lastMatch]
  | cons r rest ih =>
    rw [List.foldl_cons, ih]
    cases hlm : lastMatch (fun r' => !r'.result.success && decide (r'.command = c)) rest with
    | some r' => simp [lastMatch, hlm]
    | none =>
      by_cases hs : r.result.success
      · simp [lastMatch, hlm, hs]
      · by_cases hc : r.command = c
        · subst hc
          simp [lastMatch, hlm, hs, lookupA_upsertA_self]
        · simp [lastMatch, hlm, hs, hc, lookupA_upsertA_ne _ _ _ _ hc]

theorem lastMatch_mem (p : CommandQueueResult → Bool) (rs : List CommandQueueResult)
    (r : CommandQueueResult) (h : lastMatch p rs = some r) : r ∈ rs ∧ p r = true := by
  induction rs with
  | nil => simp [lastMatch] at h
  | cons r0 rest ih =>
    rw [lastMatch] at h
    cases hlm : lastMatch p rest with
    | some r' =>
      rw [hlm] at h
      simp only [Option.some.injEq] at h
      subst h
      obtain ⟨hr, hp⟩ := ih hlm
      exact ⟨List.mem_cons_of_mem _ hr, hp⟩
    | none =>
      rw [hlm] at h
      by_cases hp : p r0
      · simp [hp] at h
        subst h
        exact ⟨List.mem_cons_self _ _, hp⟩
      · simp [hp] at h

theorem exec_pipe_none (config : CommandQueueConfig)
    (canned : List (String × CommandQueueResult))
    (spawn : String → Option String → String × String × Int)
    (cmd : String) (lr : Option CommandQueueResult) :
    exec config canned spawn cmd lr Option.none =
      exec config canned spawn cmd Option.none Option.none := by
  cases hd : config.dryRun <;> cases lr <;> simp [exec, hd]

theorem handleExecCommand_plain (config : CommandQueueConfig)
    (canned : List (String × CommandQueueResult))
    (spawn : String → Option String → String × String × Int)
    (accRev : List CommandQueueResult) (lr : Option CommandQueueResult)
    (c : CommandInput) (hpipe : c.pipe = Option.none)
    (hacc : accRev = [] ∨ ∃ r t, accRev = r :: t ∧ r.piped = PipeType.none) :
    handleExecCommand config canned spawn accRev lr c =
      handleExecCommand config canned spawn [] Option.none c := by
  have hchain : buildPipeChain accRev c.command = c.command := by
    rcases hacc with h | ⟨r, t, hacc, hpiped⟩
    · rw [h, buildPipeChain]
    · rw [hacc, buildPipeChain, hpiped]
  simp only [handleExecCommand, hchain, hpipe, exec_pipe_none]
  rfl

theorem execOne_fields (config : CommandQueueConfig)
    (canned : List (String × CommandQueueResult))
    (spawn : String → Option String → String × String × Int)
    (c : CommandInput) (hpost : c.post = Option.none) :
    (execOne config canned spawn c).piped = PipeType.none ∧
      (execOne config canned spawn c).skipped = false ∧
      (execOne config canned spawn c).command = c.command := by
  simp [execOne, handleExecCommand, hpost, postHandler, buildPipeChain]

theorem runLoop_plain (config : CommandQueueConfig)
    (canned : List (String × CommandQueueResult))
    (spawn : String → Option String → String × String × Int) (flag : Bool) :
    ∀ (cmds : List CommandInput) (lr : Option CommandQueueResult)
      (accRev : List CommandQueueResult) (spRev : List String),
      (∀ c ∈ cmds, c.pre = Option.none ∧ c.post = Option.none ∧
        c.pipe = Option.none ∧ c.continueOnError = flag) →
      (accRev = [] ∨ ∃ r t, accRev = r :: t ∧ r.piped = PipeType.none) →
      (runLoop config canned spawn cmds lr accRev spRev).1 =
        accRev.reverse ++
          (if flag then cmds.map (execOne config canned spawn)
           else resultsUpToFirstFailure (cmds.map (execOne config canned spawn))) := by
  intro cmds
  induction cmds with
  | nil =>
    intro lr accRev spRev _ _
    simp [runLoop, resultsUpToFirstFailure]
  | cons c rest ih =>
    intro lr accRev spRev hplain hacc
    obtain ⟨hpre, hpost, hpipe, hcoe⟩ := hplain c (List.mem_cons_self _ _)
    have hrest : ∀ c' ∈ rest, c'.pre = Option.none ∧ c'.post = Option.none ∧
        c'.pipe = Option.none ∧ c'.continueOnError = flag :=
      fun c' hc' => hplain c' (List.mem_cons_of_mem _ hc')
    have hskip : shouldSkipCommand c lr = false := by
      simp [shouldSkipCommand, preHandler, hpre]
    have hpipeNext : shouldPipeCommand rest.head? = false := by
      cases hr : rest with
      | nil => simp [shouldPipeCommand]
      | cons c' t =>
        have := (hrest c' (by rw [hr]; exact List.mem_cons_self _ _)).2.2.1
        simp [shouldPipeCommand, this]
    have hstep : runStep config canned spawn accRev lr c rest.head? =
        handleExecCommand config canned spawn accRev lr c := by
      simp [runStep, hskip, hpipeNext]
    have hexec : handleExecCommand config canned spawn accRev lr c =
        handleExecCommand config canned spawn [] Option.none c :=
      handleExecCommand_plain config canned spawn accRev lr c hpipe hacc
    have hfields := execOne_fields config canned spawn c hpost
    rw [runLoop]
    simp only [hstep, hexec]
    have hone : (handleExecCommand config canned spawn [] Option.none c).1 =
        execOne config canned spawn c := rfl
    simp only [hone]
    have hacc' : execOne config canned spawn c :: accRev = [] ∨
        ∃ r t, execOne config canned spawn c :: accRev = r :: t ∧ r.piped = PipeType.none :=
      Or.inr ⟨_, _, rfl, hfields.1⟩
    cases hflag : flag with
    | true =>
      rw [hcoe, hflag]
      simp only [Bool.not_true, Bool.and_false, Bool.false_eq_true, if_false]
      rw [ih _ _ _ hrest hacc']
      simp [hflag, List.reverse_cons, List.append_assoc]
    | false =>
      rw [hcoe, hflag]
      cases hs : (execOne config canned spawn c).result.success with
      | true =>
        simp only [Bool.not_true, Bool.false_and, Bool.false_eq_true, if_false, hs,
          Bool.not_false, Bool.and_true]
        rw [ih _ _ _ hrest hacc']
        simp [hflag, List.reverse_cons, List.append_assoc, List.map_cons,
          resultsUpToFirstFailure, hs]
      | false =>
        simp only [hs, Bool.not_false, Bool.and_true, if_true]
        simp [hflag, List.reverse_cons, List.map_cons, resultsUpToFirstFailure, hs]

theorem resultsUpToFirstFailure_all_success (rs : List CommandQueueResult)
    (h : ∀ r ∈ rs, r.result.success = true) :
    resultsUpToFirstFailure rs = rs := by
  induction rs with
  | nil => rfl
  | cons r rest ih =>
    rw [resultsUpToFirstFailure, h r (List.mem_cons_self _ _)]
    simp [ih fun r' hr' => h r' (List.mem_cons_of_mem _ hr')]

theorem runStep_dry_no_spawn (config : CommandQueueConfig)
    (canned : List (String × CommandQueueResult))
    (spawn : String → Option String → String × String × Int)
    (resultsRev : List CommandQueueResult) (lr : Option CommandQueueResult)
    (c : CommandInput) (nc : Option CommandInput) (hdry : config.dryRun = true) :
    (runStep config canned spawn resultsRev lr c nc).2 = Option.none := by
  rw [runStep]
  by_cases hskip : shouldSkipCommand c lr
  · simp [hskip]
  · by_cases hpipe : shouldPipeCommand nc
    · simp [hskip, hpipe]
    · simp only [hskip, hpipe, if_false, Bool.false_eq_true]
      rw [handleExecCommand]
      simp only [exec, hdry, if_true]
      cases lookupA canned (buildPipeChain resultsRev c.command) <;> rfl

theorem runLoop_dry_no_spawn (config : CommandQueueConfig)
    (canned : List (String × CommandQueueResult))
    (spawn : String → Option String → String × String × Int)
    (hdry : config.dryRun = true) :
    ∀ (cmds : List CommandInput) (lr : Option CommandQueueResult)
      (accRev : List CommandQueueResult) (spRev : List String),
      (runLoop config canned spawn cmds lr accRev spRev).2 = spRev.reverse := by
  intro cmds
  induction cmds with
  | nil => intro lr accRev spRev; rfl
  | cons c rest ih =>
    intro lr accRev spRev
    rw [runLoop]
    simp only [runStep_dry_no_spawn config canned spawn accRev lr c rest.head? hdry]
    by_cases hbrk : (!(runStep config canned spawn accRev lr c rest.head?).1.result.success &&
        !c.continueOnError) = true
    · simp [hbrk]
    · simp only [hbrk, if_false, Bool.false_eq_true]
      exact ih _ _ _

theorem runLoop_cons (config : CommandQueueConfig)
    (canned : List (String × CommandQueueResult))
    (spawn : String → Option String → String × String × Int)
    (c : CommandInput) (rest : List CommandInput) (lr : Option CommandQueueResult)
    (accRev : List CommandQueueResult) (spRev : List String)
    (r : CommandQueueResult) (os : Option String)
    (hstep : runStep config canned spawn accRev lr c rest.head? = (r, os))
    (hgo : (!r.result.success && !c.continueOnError) = false) :
    runLoop config canned spawn (c :: rest) lr accRev spRev =
      runLoop config canned spawn rest (some r) (r :: accRev)
        (match os with | some s => s :: spRev | Option.none => spRev) := by
  cases os <;>
    (rw [runLoop]; simp only [hstep, hgo, Bool.false_eq_true, if_false])

theorem runLoop_single (config : CommandQueueConfig)
    (canned : List (String × CommandQueueResult))
    (spawn : String → Option String → String × String × Int)
    (c : CommandInput) (lr : Option CommandQueueResult)
    (accRev : List CommandQueueResult) (spRev : List String)
    (r : CommandQueueResult) (os : Option String)
    (hstep : runStep config canned spawn accRev lr c Option.none = (r, os)) :
    runLoop config canned spawn [c] lr accRev spRev =
      ((r :: accRev).reverse,
        (match os with | some s => s :: spRev | Option.none => spRev).reverse) := by
  cases os <;>
    (rw [runLoop]; simp only [List.head?_nil, hstep]; split;
     · rfl
     · rw [runLoop])

theorem firstUnskipped_some (rs : List CommandQueueResult) (r : CommandQueueResult)
    (h : firstUnskipped rs = some r) : r.skipped = false ∧ r ∈ rs := by
  induction rs with
  | nil => simp [firstUnskipped] at h
  | cons r0 rest ih =>
    rw [firstUnskipped] at h
    by_cases hs : r0.skipped
    · rw [if_pos hs] at h
      obtain ⟨h1, h2⟩ := ih h
      exact ⟨h1, List.mem_cons_of_mem _ h2⟩
    · rw [if_neg hs] at h
      cases h
      exact ⟨Bool.eq_false_iff.mpr hs, List.mem_cons_self _ _⟩

theorem firstUnskipped_none_iff (rs : List CommandQueueResult) :
    firstUnskipped rs = Option.none ↔ ∀ r ∈ rs, r.skipped = true := by
  induction rs with
  | nil => simp [firstUnskipped]
  | cons r0 rest ih =>
    rw [firstUnskipped]
    by_cases hs : r0.skipped
    · simp [hs, ih]
    · simp [hs]

/-! ### Claim theorems -/

/-- C3: for every executed (non-skipped, non-piped-away) result, the outcome
classification sets `success` to false exactly when the exit status is non-zero
AND stderr is non-empty; in particular a zero exit with non-empty stderr, and a
non-zero exit with empty stderr, are both classified as success.  The second
component states this for the result an exec step stores (absent a caller
`post` transform, which runs after classification). -/
theorem outcome_classification :
    (∀ r : CommandQueueResult,
      (((postHandler r).result.success = false) ↔ (r.stat ≠ 0 ∧ r.err ≠ "")) ∧
      (r.stat = 0 → (postHandler r).result.success = true) ∧
      (r.err = "" → (postHandler r).result.success = true) ∧
      (postHandler r).result.message = r.err) ∧
    (∀ (config : CommandQueueConfig) (canned : List (String × CommandQueueResult))
        (spawn : String → Option String → String × String × Int)
        (accRev : List CommandQueueResult) (lr : Option CommandQueueResult)
        (c : CommandInput), c.post = Option.none →
      (((handleExecCommand config canned spawn accRev lr c).1.result.success = false) ↔
        ((handleExecCommand config canned spawn accRev lr c).1.stat ≠ 0 ∧
          (handleExecCommand config canned spawn accRev lr c).1.err ≠ ""))) := by
  have hmain : ∀ r : CommandQueueResult,
      ((postHandler r).result.success = false) ↔ (r.stat ≠ 0 ∧ r.err ≠ "") := by
    intro r
    simp [postHandler]
  constructor
  · intro r
    refine ⟨hmain r, ?_, ?_, rfl⟩
    · intro h
      cases hs : (postHandler r).result.success with
      | true => rfl
      | false => exact absurd h (fun h0 => ((hmain r).mp hs).1 (by rw [h0]))
    · intro h
      cases hs : (postHandler r).result.success with
      | true => rfl
      | false => exact absurd h (fun h0 => ((hmain r).mp hs).2 (by rw [h0]))
  · intro config canned spawn accRev lr c hpost
    have hh : (handleExecCommand config canned spawn accRev lr c).1 =
        postHandler
          { id := c.id
            command := buildPipeChain accRev c.command
            skipped := false
            piped := PipeType.none
            out := (exec config canned spawn (buildPipeChain accRev c.command) lr c.pipe).1.1
            err := (exec config canned spawn (buildPipeChain accRev c.command) lr c.pipe).1.2.1
            stat := (exec config canned spawn (buildPipeChain accRev c.command) lr c.pipe).1.2.2
            result := { success := false, message := "" } } := by
      simp [handleExecCommand, hpost]
    rw [hh]
    exact hmain _

/-- Witness for `outcome_classification` at concrete inputs: a result with exit
status 1 and non-empty stderr is classified as failure, also through the exec path. -/
theorem outcome_classification_witness :
    (plainCmd "fail" "w").post = Option.none ∧
    ((postHandler dupFail1).result.success = false) ∧
    ((handleExecCommand cfgLive [] spawnSel [] Option.none
        (plainCmd "fail" "w")).1.result.success = false) := by
  refine ⟨rfl, ?_, ?_⟩
  · exact (outcome_classification.1 dupFail1).1.mpr (by constructor <;> decide)
  · exact (outcome_classification.2 cfgLive [] spawnSel [] Option.none
      (plainCmd "fail" "w") rfl).mpr (by constructor <;> decide)

/-- C8: every run computes the result store afresh — independently of the
previous store, which it clears — and drains the command queue, whatever the
outcome, also under the end-of-run persistence wrapper. -/
theorem run_drains_queue_and_clears_results
    (spawn : String → Option String → String × String × Int) (q : CommandQueue)
    (file : Option FileContent) (writeOk : Bool) (rs' : List CommandQueueResult) :
    ((q.run spawn).1.commands = []) ∧
    ((runWithFile spawn q file writeOk).1.commands = []) ∧
    ((CommandQueue.run spawn
        { commands := q.commands, config := q.config, results := rs',
          cannedResults := q.cannedResults }).1.results = (q.run spawn).1.results) ∧
    ((q.run spawn).1.results =
      (runLoop q.config q.cannedResults spawn q.commands Option.none [] []).1) :=
  ⟨rfl, rfl, rfl, rfl⟩

/-- C9: `first()`/`last()` never return a skipped result (piped-away results are
not excluded), both are absent exactly when every stored result is skipped (or
the store is empty), and `firstOut()`/`lastOut()` are the trimmed stdout of the
same results. -/
theorem first_last_exclude_skipped (rs rs' : List CommandQueueResult) (r : CommandQueueResult) :
    (∀ r0, firstUnskipped rs = some r0 → r0.skipped = false ∧ r0 ∈ rs) ∧
    (∀ r0, lastUnskipped rs = some r0 → r0.skipped = false ∧ r0 ∈ rs) ∧
    (firstUnskipped rs = Option.none ↔ ∀ r0 ∈ rs, r0.skipped = true) ∧
    (lastUnskipped rs = Option.none ↔ ∀ r0 ∈ rs, r0.skipped = true) ∧
    (firstOut rs = (firstUnskipped rs).map fun r0 => r0.out.trim) ∧
    (lastOut rs = (lastUnskipped rs).map fun r0 => r0.out.trim) ∧
    (r.skipped = false → firstUnskipped (r :: rs') = some r) := by
  refine ⟨fun r0 h => firstUnskipped_some rs r0 h, ?_, firstUnskipped_none_iff rs, ?_,
    rfl, rfl, ?_⟩
  · intro r0 h
    obtain ⟨h1, h2⟩ := firstUnskipped_some _ r0 h
    exact ⟨h1, List.mem_reverse.mp h2⟩
  · rw [lastUnskipped, firstUnskipped_none_iff]
    constructor
    · intro h r0 hr0
      exact h r0 (List.mem_reverse.mpr hr0)
    · intro h r0 hr0
      exact h r0 (List.mem_reverse.mp hr0)
  · intro h
    simp [firstUnskipped, h]

/-- Witness for `first_last_exclude_skipped`: an unskipped piped-away result is
returned; a store of only skipped results yields absent. -/
theorem first_last_exclude_skipped_witness :
    rPiped.skipped = false ∧
    firstUnskipped (rPiped :: []) = some rPiped ∧
    firstUnskipped [rSkip] = Option.none := by
  refine ⟨rfl, ?_, ?_⟩
  · exact (first_last_exclude_skipped [rSkip, rPiped] [] rPiped).2.2.2.2.2.2 rfl
  · exact ((first_last_exclude_skipped [rSkip] [] rPiped).2.2.1).mpr (by decide)

/-- C10: `errors()` is keyed by each failed result's stored command text, so
the entry for a text duplicated among failed results holds the message of the
last such failed result, and the mapping can have strictly fewer entries than
there are failed results. -/
theorem errors_keyed_by_compiled_command :
    (∀ (rs : List CommandQueueResult) (c : String),
      lookupA (errorsOf rs) c =
        (lastMatch (fun r => !r.result.success && decide (r.command = c)) rs).map
          (fun r => r.result.message)) ∧
    ((errorsOf [dupFail1, dupFail2]).length = 1 ∧
      ([dupFail1, dupFail2].filter (fun r => !r.result.success)).length = 2 ∧
      lookupA (errorsOf [dupFail1, dupFail2]) "dup" = some "second failure") := by
  constructor
  · intro rs c
    rw [errorsOf, lookupA_errorsOf_aux]
    cases lastMatch (fun r => !r.result.success && decide (r.command = c)) rs <;> rfl
  · refine ⟨?_, ?_, ?_⟩ <;> decide

/-- C7: `save(path, append=true)` on an existing parsable file seeds the
mapping from the file, merges one entry per result keyed by compiled command
text (later results overwrite earlier ones for the same text, unrelated
entries survive), writes the merge back and returns true; a parse or write
failure yields false without raising. -/
theorem save_append_merge (rs : List CommandQueueResult)
    (seed : List (String × CommandQueueResult)) (file : Option FileContent) (c : String) :
    (save rs (some (FileContent.valid seed)) true true =
      (true, some (FileContent.valid (saveMerge seed rs)))) ∧
    (lookupA (saveMerge seed rs) c =
      match lastMatch (fun r => decide (r.command = c)) rs with
      | some r => some r
      | Option.none => lookupA seed c) ∧
    (save rs (some FileContent.invalid) true true = (false, some FileContent.invalid)) ∧
    (save rs file false true = (false, file)) ∧
    (save rs file false false = (false, file)) := by
  refine ⟨rfl, lookupA_saveMerge rs seed c, rfl, ?_, ?_⟩
  · rcases file with _ | f
    · rfl
    · cases f <;> rfl
  · rcases file with _ | f
    · rfl
    · cases f <;> rfl

/-- C1 counterexample: a queue of a gate-rejected request followed by a plain
request, run with continue-on-error false everywhere.  The skipped result is
recorded with `success = false`, so the run halts (the second request produces
no result), `hasErrors()` becomes true and `success()` becomes false — refuting
"never halts the run" and "never counted as an error". -/
theorem gate_rejection_halts_and_counts_cex :
    ((runLoop cfgLive [] spawnZero [gatedCmd, plainCmd "echo b" "i2"]
        Option.none [] []).1.length = 1) ∧
    (hasErrorsOf (runLoop cfgLive [] spawnZero [gatedCmd, plainCmd "echo b" "i2"]
        Option.none [] []).1 = true) ∧
    (successOf (runLoop cfgLive [] spawnZero [gatedCmd, plainCmd "echo b" "i2"]
        Option.none [] []).1 = false) ∧
    ((runLoop cfgLive [] spawnZero [gatedCmd, plainCmd "echo b" "i2"]
        Option.none [] []).1.map (fun r => r.skipped) = [true]) :=
  ⟨rfl, rfl, rfl, rfl⟩

/-- C1 (amended): a gate-rejected request is recorded as a skipped result with
empty output, exit status 0 and the fixed outcome
`{success := false, message := "Command skipped"}`; because its outcome is a
failure, it halts the run unless the request's `continueOnError` is set, and
any store containing such a result has `hasErrors() = true` and
`success() = false`. -/
theorem gate_rejection_recorded_and_policy
    (config : CommandQueueConfig) (canned : List (String × CommandQueueResult))
    (spawn : String → Option String → String × String × Int)
    (c : CommandInput) (rest : List CommandInput) (lr : Option CommandQueueResult)
    (accRev : List CommandQueueResult) (spRev : List String)
    (rs : List CommandQueueResult)
    (hskip : shouldSkipCommand c lr = true) :
    ((handleSkippedCommand c).skipped = true ∧
      (handleSkippedCommand c).out = "" ∧
      (handleSkippedCommand c).err = "" ∧
      (handleSkippedCommand c).stat = 0 ∧
      (handleSkippedCommand c).result = { success := false, message := "Command skipped" }) ∧
    (runLoop config canned spawn (c :: rest) lr accRev spRev =
      if c.continueOnError then
        runLoop config canned spawn rest (some (handleSkippedCommand c))
          (handleSkippedCommand c :: accRev) spRev
      else ((handleSkippedCommand c :: accRev).reverse, spRev.reverse)) ∧
    (handleSkippedCommand c ∈ rs → hasErrorsOf rs = true ∧ successOf rs = false) := by
  refine ⟨⟨rfl, rfl, rfl, rfl, rfl⟩, ?_, ?_⟩
  · cases hco : c.continueOnError <;>
      simp [runLoop, runStep, hskip, hco, handleSkippedCommand]
  · intro hmem
    constructor
    · rw [hasErrorsOf]
      rw [List.any_eq_true]
      exact ⟨handleSkippedCommand c, hmem, rfl⟩
    · rw [successOf, Bool.eq_false_iff]
      intro hall
      have hfalse : (handleSkippedCommand c).result.success = true := by
        have hmap := List.all_eq_true.mp hall (handleSkippedCommand c) hmem
        simpa using hmap
      simp [handleSkippedCommand] at hfalse

/-- Witness for `gate_rejection_recorded_and_policy`: a concrete always-false
gate, skipped-and-recorded, halting a run with continue-on-error false. -/
theorem gate_rejection_recorded_and_policy_witness :
    shouldSkipCommand gatedCmd Option.none = true ∧
    (handleSkippedCommand gatedCmd).skipped = true ∧
    runLoop cfgLive [] spawnZero [gatedCmd] Option.none [] [] =
      ([handleSkippedCommand gatedCmd], []) ∧
    hasErrorsOf [handleSkippedCommand gatedCmd] = true := by
  have hskip : shouldSkipCommand gatedCmd Option.none = true := rfl
  have thm := gate_rejection_recorded_and_policy cfgLive [] spawnZero gatedCmd []
    Option.none [] [] [handleSkippedCommand gatedCmd] hskip
  refine ⟨hskip, thm.1.1, ?_, (thm.2.2 (List.mem_singleton_self _)).1⟩
  rw [thm.2.1]
  rfl

/-- C4: with dry-run active no command text is ever handed to the OS spawner;
a compiled pipeline text present in the canned-result store replays its stored
stdout/stderr/exit status verbatim, and one absent from the store yields empty
output and exit status 0. -/
theorem dry_run_no_process (config : CommandQueueConfig)
    (canned : List (String × CommandQueueResult))
    (spawn : String → Option String → String × String × Int)
    (hdry : config.dryRun = true) :
    (∀ (cmds : List CommandInput) (lr : Option CommandQueueResult)
        (accRev : List CommandQueueResult),
      (runLoop config canned spawn cmds lr accRev []).2 = []) ∧
    (∀ (cmd : String) (r : CommandQueueResult) (lr : Option CommandQueueResult)
        (pipe : Option PipeType), lookupA canned cmd = some r →
      exec config canned spawn cmd lr pipe = ((r.out, r.err, r.stat), Option.none)) ∧
    (∀ (cmd : String) (lr : Option CommandQueueResult) (pipe : Option PipeType),
      lookupA canned cmd = Option.none →
      exec config canned spawn cmd lr pipe = (("", "", 0), Option.none)) := by
  refine ⟨?_, ?_, ?_⟩
  · intro cmds lr accRev
    rw [runLoop_dry_no_spawn config canned spawn hdry cmds lr accRev []]
    rfl
  · intro cmd r lr pipe hhit
    simp [exec, hdry, hhit]
  · intro cmd lr pipe hmiss
    simp [exec, hdry, hmiss]

/-- Witness for `dry_run_no_process`: a dry run spawns nothing; a canned hit
replays `OUT`/`E`/3 verbatim; a miss yields empty output and status 0. -/
theorem dry_run_no_process_witness :
    cfgDryFile.dryRun = true ∧
    (runLoop cfgDryFile canned0 spawnZero [plainCmd "echo a" "i1", plainCmd "other" "i2"]
        Option.none [] []).2 = [] ∧
    exec cfgDryFile canned0 spawnZero "echo a" Option.none Option.none =
      (("OUT", "E", 3), Option.none) ∧
    exec cfgDryFile canned0 spawnZero "other" Option.none Option.none =
      (("", "", 0), Option.none) := by
  have thm := dry_run_no_process cfgDryFile canned0 spawnZero rfl
  exact ⟨rfl, thm.1 [plainCmd "echo a" "i1", plainCmd "other" "i2"] Option.none [],
    thm.2.1 "echo a" rCan Option.none Option.none rfl,
    thm.2.2 "other" Option.none Option.none (by decide)⟩

/-- C5: for a queue with no gates, no transforms, no pipe modes and a uniform
continue-on-error flag, the result store of a run is the per-request results
up to and including the first failure (all of them when the flag is true or no
request fails); once a failure halts the loop, later requests produce no
result at all. -/
theorem result_store_length_law (config : CommandQueueConfig)
    (canned : List (String × CommandQueueResult))
    (spawn : String → Option String → String × String × Int)
    (flag : Bool) (cmds : List CommandInput)
    (hplain : ∀ c ∈ cmds, c.pre = Option.none ∧ c.post = Option.none ∧
      c.pipe = Option.none ∧ c.continueOnError = flag) :
    ((runLoop config canned spawn cmds Option.none [] []).1 =
      if flag then cmds.map (execOne config canned spawn)
      else resultsUpToFirstFailure (cmds.map (execOne config canned spawn))) ∧
    ((runLoop config canned spawn cmds Option.none [] []).1.length =
      if flag then cmds.length
      else (resultsUpToFirstFailure (cmds.map (execOne config canned spawn))).length) ∧
    ((∀ r ∈ cmds.map (execOne config canned spawn), r.result.success = true) →
      (runLoop config canned spawn cmds Option.none [] []).1.length = cmds.length) := by
  have h := runLoop_plain config canned spawn flag cmds Option.none [] [] hplain (Or.inl rfl)
  rw [List.reverse_nil, List.nil_append] at h
  refine ⟨h, ?_, ?_⟩
  · rw [h]
    cases flag <;> simp
  · intro hall
    rw [h, resultsUpToFirstFailure_all_success _ hall]
    cases flag <;> simp

/-- Witness for `result_store_length_law`: three plain requests of which the
second fails under `spawnSel` with continue-on-error false everywhere — the
store holds exactly two results. -/
theorem result_store_length_law_witness :
    (∀ c ∈ cmds0, c.pre = Option.none ∧ c.post = Option.none ∧
      c.pipe = Option.none ∧ c.continueOnError = false) ∧
    (runLoop cfgLive [] spawnSel cmds0 Option.none [] []).1.length = 2 := by
  have hplain : ∀ c ∈ cmds0, c.pre = Option.none ∧ c.post = Option.none ∧
      c.pipe = Option.none ∧ c.continueOnError = false := by
    intro c hc
    fin_cases hc <;> exact ⟨rfl, rfl, rfl, rfl⟩
  refine ⟨hplain, ?_⟩
  rw [(result_store_length_law cfgLive [] spawnSel false cmds0 hplain).2.1]
  rfl

/-- C6: record/replay round trip.  A live run with a results file configured
persists the merged mapping keyed by compiled command text; a dry-run queue
constructed against that file loads exactly that mapping, and the dry-run
executor reproduces the recorded `out`/`err`/`stat` verbatim (spawning
nothing) for every compiled command text that matches a live result. -/
theorem record_replay_round_trip
    (spawn spawn2 : String → Option String → String × String × Int)
    (q : CommandQueue) (seed : List (String × CommandQueueResult))
    (cfgD : CommandQueueConfig) (cmdText : String)
    (rs : List CommandQueueResult) (r : CommandQueueResult)
    (lr : Option CommandQueueResult) (pipe : Option PipeType)
    (hLiveDry : q.config.dryRun = false) (hLiveFile : hasResultsFile q.config = true)
    (hDryDry : cfgD.dryRun = true) (hDryFile : hasResultsFile cfgD = true)
    (hrs : rs = (q.run spawn).1.results) :
    ((runWithFile spawn q (some (FileContent.valid seed)) true).2.2 =
      some (FileContent.valid (saveMerge seed rs))) ∧
    (mkQueue cfgD (some (FileContent.valid (saveMerge seed rs))) =
      Except.ok { commands := [], config := cfgD, results := [],
                  cannedResults := saveMerge seed rs }) ∧
    (lastMatch (fun r' => decide (r'.command = cmdText)) rs = some r →
      r ∈ rs ∧ r.command = cmdText ∧
      exec cfgD (saveMerge seed rs) spawn2 cmdText lr pipe =
        ((r.out, r.err, r.stat), Option.none)) := by
  refine ⟨?_, ?_, ?_⟩
  · simp [runWithFile, hLiveFile, hLiveDry, save, hrs]
  · simp [mkQueue, loadCanned, hDryDry, hDryFile, Except.map]
  · intro h
    obtain ⟨hm, hp⟩ := lastMatch_mem _ rs r h
    have hcmd : r.command = cmdText := of_decide_eq_true hp
    refine ⟨hm, hcmd, ?_⟩
    have hlook : lookupA (saveMerge seed rs) cmdText = some r := by
      rw [lookupA_saveMerge, h]
    simp [exec, hDryDry, hlook]

/-- Witness for `record_replay_round_trip`: live-run `echo b` under
`spawnHello`, save to a fresh file, replay it dry against the saved store. -/
theorem record_replay_round_trip_witness :
    ((qLive.run spawnHello).1.results = [rLive]) ∧
    ((runWithFile spawnHello qLive (some (FileContent.valid [])) true).2.2 =
      some (FileContent.valid (saveMerge [] [rLive]))) ∧
    exec cfgDryFile (saveMerge [] [rLive]) spawnZero "echo b" Option.none Option.none =
      (("hello\n", "", 0), Option.none) := by
  have hrs : [rLive] = (qLive.run spawnHello).1.results := by decide
  have thm := record_replay_round_trip spawnHello spawnZero qLive [] cfgDryFile "echo b"
    [rLive] rLive Option.none Option.none rfl (by decide) rfl (by decide) hrs
  exact ⟨hrs.symm, thm.1, (thm.2.2 (by decide)).2.2⟩

/-- C2: `add(A).pipe(B).pipe(C)` with stdout pipe mode performs exactly one
process invocation, of the compiled text `A | B | C`; A and B are recorded as
piped-away placeholders with empty output, exit status 0 and outcome
`{true, "Piped to following command"}`, and the consuming request stores the
full pipeline as its command text.  In general (second conjunct) the backward
walk joins each deferred command with the operator selected by its declared
pipe mode — stdout `" | "`, stderr `" 2>&1 1>/dev/null | "`, both
`" 2>&1 | "` — and stops at the first non-piped-away result: a plain request
before the chain is executed separately and excluded from the pipeline. -/
theorem pipe_chain_compilation
    (config : CommandQueueConfig) (canned : List (String × CommandQueueResult))
    (spawn : String → Option String → String × String × Int)
    (x a b c idx ida idb idc : String) (ca cb cc : Bool) (p q : PipeType)
    (hdry : config.dryRun = false)
    (hp : p ≠ PipeType.none) (hq : q ≠ PipeType.none) :
    (runLoop config canned spawn
        [inCmd a ida ca Option.none, inCmd b idb cb (some PipeType.stdout),
         inCmd c idc cc (some PipeType.stdout)] Option.none [] [] =
      ([plRes ida a PipeType.stdout, plRes idb b PipeType.stdout,
        execRes idc (a ++ " | " ++ (b ++ " | " ++ c))
          (spawn (a ++ " | " ++ (b ++ " | " ++ c)) Option.none)],
       [a ++ " | " ++ (b ++ " | " ++ c)])) ∧
    (runLoop config canned spawn
        [inCmd x idx true Option.none, inCmd a ida ca Option.none,
         inCmd b idb cb (some p), inCmd c idc cc (some q)] Option.none [] [] =
      ([execRes idx x (spawn x Option.none), plRes ida a p, plRes idb b q,
        execRes idc (a ++ pipeJoinOp p ++ (b ++ pipeJoinOp q ++ c))
          (spawn (a ++ pipeJoinOp p ++ (b ++ pipeJoinOp q ++ c)) Option.none)],
       [x, a ++ pipeJoinOp p ++ (b ++ pipeJoinOp q ++ c)])) := by
  obtain ⟨wd, tr, gco, dR, fil⟩ := config
  have hdR : dR = false := hdry
  subst hdR
  constructor
  · have e1 := runLoop_cons ⟨wd, tr, gco, false, fil⟩ canned spawn
      (inCmd a ida ca Option.none)
      [inCmd b idb cb (some PipeType.stdout), inCmd c idc cc (some PipeType.stdout)]
      Option.none [] [] (plRes ida a PipeType.stdout) Option.none rfl rfl
    have e2 := runLoop_cons ⟨wd, tr, gco, false, fil⟩ canned spawn
      (inCmd b idb cb (some PipeType.stdout)) [inCmd c idc cc (some PipeType.stdout)]
      (some (plRes ida a PipeType.stdout)) [plRes ida a PipeType.stdout] []
      (plRes idb b PipeType.stdout) Option.none rfl rfl
    have e3 := runLoop_single ⟨wd, tr, gco, false, fil⟩ canned spawn
      (inCmd c idc cc (some PipeType.stdout))
      (some (plRes idb b PipeType.stdout))
      [plRes idb b PipeType.stdout, plRes ida a PipeType.stdout] []
      (execRes idc (a ++ " | " ++ (b ++ " | " ++ c))
        (spawn (a ++ " | " ++ (b ++ " | " ++ c)) Option.none))
      (some (a ++ " | " ++ (b ++ " | " ++ c))) rfl
    exact (e1.trans (e2.trans e3))
  · have hstep4 : runStep ⟨wd, tr, gco, false, fil⟩ canned spawn
        [plRes idb b q, plRes ida a p, execRes idx x (spawn x Option.none)]
        (some (plRes idb b q)) (inCmd c idc cc (some q)) Option.none =
        (execRes idc (a ++ pipeJoinOp p ++ (b ++ pipeJoinOp q ++ c))
          (spawn (a ++ pipeJoinOp p ++ (b ++ pipeJoinOp q ++ c)) Option.none),
         some (a ++ pipeJoinOp p ++ (b ++ pipeJoinOp q ++ c))) := by
      cases p <;> cases q <;>
        first
          | exact absurd rfl hp
          | exact absurd rfl hq
          | rfl
    have hstep2 : runStep ⟨wd, tr, gco, false, fil⟩ canned spawn
        [execRes idx x (spawn x Option.none)]
        (some (execRes idx x (spawn x Option.none))) (inCmd a ida ca Option.none)
        ([inCmd b idb cb (some p), inCmd c idc cc (some q)].head?) =
        (plRes ida a p, Option.none) := by
      cases p <;>
        first
          | exact absurd rfl hp
          | rfl
    have hstep3 : runStep ⟨wd, tr, gco, false, fil⟩ canned spawn
        [plRes ida a p, execRes idx x (spawn x Option.none)]
        (some (plRes ida a p)) (inCmd b idb cb (some p))
        ([inCmd c idc cc (some q)].head?) = (plRes idb b q, Option.none) := by
      cases q <;>
        first
          | exact absurd rfl hq
          | rfl
    have e1 := runLoop_cons ⟨wd, tr, gco, false, fil⟩ canned spawn
      (inCmd x idx true Option.none)
      [inCmd a ida ca Option.none, inCmd b idb cb (some p), inCmd c idc cc (some q)]
      Option.none [] [] (execRes idx x (spawn x Option.none)) (some x) rfl
      (Bool.and_false _)
    have e2 := runLoop_cons ⟨wd, tr, gco, false, fil⟩ canned spawn
      (inCmd a ida ca Option.none)
      [inCmd b idb cb (some p), inCmd c idc cc (some q)]
      (some (execRes idx x (spawn x Option.none)))
      [execRes idx x (spawn x Option.none)] [x] (plRes ida a p) Option.none hstep2 rfl
    have e3 := runLoop_cons ⟨wd, tr, gco, false, fil⟩ canned spawn
      (inCmd b idb cb (some p)) [inCmd c idc cc (some q)]
      (some (plRes ida a p))
      [plRes ida a p, execRes idx x (spawn x Option.none)] [x]
      (plRes idb b q) Option.none hstep3 rfl
    have e4 := runLoop_single ⟨wd, tr, gco, false, fil⟩ canned spawn
      (inCmd c idc cc (some q)) (some (plRes idb b q))
      [plRes idb b q, plRes ida a p, execRes idx x (spawn x Option.none)] [x]
      (execRes idc (a ++ pipeJoinOp p ++ (b ++ pipeJoinOp q ++ c))
        (spawn (a ++ pipeJoinOp p ++ (b ++ pipeJoinOp q ++ c)) Option.none))
      (some (a ++ pipeJoinOp p ++ (b ++ pipeJoinOp q ++ c))) hstep4
    exact (e1.trans (e2.trans (e3.trans e4)))

/-- Witness for `pipe_chain_compilation`: with stdout pipes the single spawned
text is `a | b | c`; with stderr/both pipes and a plain leading request, the
spawn log is `x` followed by `a 2>&1 1>/dev/null | b 2>&1 | c`. -/
theorem pipe_chain_compilation_witness :
    cfgLive.dryRun = false ∧
    (PipeType.stderr ≠ PipeType.none) ∧ (PipeType.both ≠ PipeType.none) ∧
    (runLoop cfgLive [] spawnHello
        [inCmd "a" "ia" false Option.none, inCmd "b" "ib" false (some PipeType.stdout),
         inCmd "c" "ic" false (some PipeType.stdout)] Option.none [] []).2 =
      ["a | b | c"] ∧
    (runLoop cfgLive [] spawnHello
        [inCmd "x" "ix" true Option.none, inCmd "a" "ia" false Option.none,
         inCmd "b" "ib" false (some PipeType.stderr),
         inCmd "c" "ic" false (some PipeType.both)]
        Option.none [] []).2 = ["x", "a 2>&1 1>/dev/null | b 2>&1 | c"] := by
  have thm := pipe_chain_compilation cfgLive [] spawnHello "x" "a" "b" "c" "ix" "ia" "ib"
    "ic" false false false PipeType.stderr PipeType.both rfl (by decide) (by decide)
  refine ⟨rfl, by decide, by decide, ?_, ?_⟩
  · rw [thm.1]
    rfl
  · rw [thm.2]
    rfl

end Cmdq
